import Mathlib

/-!
Shallow embedding of `gh-rr` (`main.go`, latest revision: the one with the
`--global` flag and lower-cased repository keys) and verification of its
specification.

Modelling conventions:
* Go maps (`map[string]...`) are embedded as association lists with
  first-match lookup (`goLookup`); Go map indexing compares keys for exact
  equality, which `goLookup` mirrors.
* Go slices are Lean `List`s.
* Fallible operations return `Except`/`Option`.
* The YAML text grammar is an external library; we embed the parsed value
  tree (`Yaml`) and the repository's own `UnmarshalYAML` decoding logic on
  top of it.  A file's content is `FileContent`: empty text, text the YAML
  grammar rejects, or a well-formed document.
* `strings.ToLower` is embedded as a per-character lowering (`goToLower`);
  the repository/group names in play are ASCII.
-/

namespace GhRr

/-- First-match lookup in an association list keyed by strings; embeds Go
map indexing (`m[k]`) for the maps this program builds. -/
def goLookup {α : Type} : List (String × α) → String → Option α
  | [], _ => none
  | (k, v) :: rest, key => if k = key then some v else goLookup rest key

/-- Embeds `strings.ToLower` (per-character lowering; ASCII inputs here). -/
def goToLower (s : String) : String := ⟨s.data.map Char.toLower⟩

/-- Embeds the `found` result of `strings.Cut(s, "/")` for the one-character
separator used in `main.go`: true exactly when the character occurs in `s`. -/
def cutFound (s : String) (c : Char) : Bool := s.data.contains c

/-- Embeds `strings.HasPrefix s pre`. -/
def goStartsWith (s pre : String) : Bool := pre.data.isPrefixOf s.data

/-- Embeds `filepath.Join dir file` for a clean directory path, as used at
`main.go` line 536 (`filepath.Join(*configDir, "gh-rr.yml")`). -/
def filepathJoin (dir file : String) : String := dir ++ "/" ++ file

/-- Embeds `strings.TrimSpace`: drop whitespace from both ends. -/
def goTrimSpace (s : String) : String :=
  ⟨((s.data.dropWhile Char.isWhitespace).reverse.dropWhile Char.isWhitespace).reverse⟩

/-- The groups of one repository: group name to reviewer usernames
(`map[string][]string` in Go). -/
abbrev Groups := List (String × List String)

/-- The `repositories` map: lower-cased repository name to its groups
(`map[string]map[string][]string` in Go). -/
abbrev Repositories := List (String × Groups)

/-- Embeds the Go `config` struct (`main.go` lines 390-392). -/
structure Config where
  repositories : Repositories
deriving DecidableEq

/-- The two resolution errors `errRepositoryNotConfigured` and
`errGroupNotConfigured` (`main.go` lines 448-449). -/
inductive ResolveError where
  | repositoryNotConfigured
  | groupNotConfigured
deriving DecidableEq

/-- Embeds `determineReviewers` (`main.go` lines 451-463): unknown
repository and unknown group are distinct failures; otherwise the stored
reviewer list is returned as is. -/
def determineReviewers (conf : Config) (repository group : String) :
    Except ResolveError (List String) :=
  match goLookup conf.repositories repository with
  | none => .error .repositoryNotConfigured
  | some groups =>
    match goLookup groups group with
    | none => .error .groupNotConfigured
    | some reviewers => .ok reviewers

/-- Embeds `buildAddReviewersArgs` (`main.go` lines 465-473): the base
`gh pr edit` argument vector followed by one `--add-reviewer` pair per
reviewer, appended in a loop. -/
def buildAddReviewersArgs (repository target : String) (reviewers : List String) :
    List String :=
  reviewers.foldl (fun args reviewer => args ++ ["--add-reviewer", reviewer])
    ["pr", "edit", target, "--repo", repository]

/-- The reviewer flag pairs in order, written as the spec describes them
(`--add-reviewer r1, --add-reviewer r2, ...`). -/
def reviewerFlags : List String → List String
  | [] => []
  | r :: rest => "--add-reviewer" :: r :: reviewerFlags rest

lemma buildAddReviewersArgs_go (acc : List String) (reviewers : List String) :
    reviewers.foldl (fun args reviewer => args ++ ["--add-reviewer", reviewer]) acc
      = acc ++ reviewerFlags reviewers := by
  induction reviewers generalizing acc with
  | nil => simp [reviewerFlags]
  | cons r rest ih => simp [reviewerFlags, ih, List.append_assoc]

/-- C2: `buildAddReviewersArgs` is the fixed five-element base command
followed by an `(--add-reviewer, r)` pair for every reviewer in input
order; with no reviewers it is exactly the base command.  (Purity and
determinism hold because the embedding is a function of its arguments.) -/
theorem c2_buildAddReviewersArgs (repository target : String)
    (reviewers : List String) :
    buildAddReviewersArgs repository target reviewers
        = ["pr", "edit", target, "--repo", repository] ++ reviewerFlags reviewers
      ∧ buildAddReviewersArgs repository target []
        = ["pr", "edit", target, "--repo", repository] := by
  refine ⟨?_, rfl⟩
  simpa using buildAddReviewersArgs_go
    ["pr", "edit", target, "--repo", repository] reviewers

/-- C1: resolution fails with `repositoryNotConfigured` when the repository
key is absent, with `groupNotConfigured` when the repository is present but
the group key is absent, and otherwise returns the stored list verbatim;
a stored empty list is returned as a success, never as either failure. -/
theorem c1_determineReviewers (conf : Config) (repo group : String) :
    (goLookup conf.repositories repo = none →
      determineReviewers conf repo group = .error .repositoryNotConfigured)
    ∧ (∀ groups, goLookup conf.repositories repo = some groups →
        goLookup groups group = none →
        determineReviewers conf repo group = .error .groupNotConfigured)
    ∧ (∀ groups reviewers, goLookup conf.repositories repo = some groups →
        goLookup groups group = some reviewers →
        determineReviewers conf repo group = .ok reviewers)
    ∧ (∀ groups, goLookup conf.repositories repo = some groups →
        goLookup groups group = some [] →
        determineReviewers conf repo group = .ok []
          ∧ ∀ e, determineReviewers conf repo group ≠ .error e) := by
  refine ⟨fun h => by simp [determineReviewers, h],
    fun groups h hg => by simp [determineReviewers, h, hg],
    fun groups reviewers h hg => by simp [determineReviewers, h, hg],
    fun groups h hg => ⟨by simp [determineReviewers, h, hg],
      fun e => by simp [determineReviewers, h, hg]⟩⟩

/-- C1 witness: with the one-repository config `{acme/app: {default: [alice]}}`,
an unknown repository, an unknown group, a configured group, and an
explicitly empty group all behave as stated. -/
theorem c1_determineReviewers_witness :
    determineReviewers ⟨[("acme/app", [("default", ["alice"]), ("empty", [])])]⟩
        "other/repo" "default" = .error .repositoryNotConfigured
      ∧ determineReviewers ⟨[("acme/app", [("default", ["alice"]), ("empty", [])])]⟩
        "acme/app" "infra" = .error .groupNotConfigured
      ∧ determineReviewers ⟨[("acme/app", [("default", ["alice"]), ("empty", [])])]⟩
        "acme/app" "default" = .ok ["alice"]
      ∧ determineReviewers ⟨[("acme/app", [("default", ["alice"]), ("empty", [])])]⟩
        "acme/app" "empty" = .ok [] := by
  refine ⟨?_, ?_, ?_, ?_⟩
  · exact (c1_determineReviewers ⟨[("acme/app", [("default", ["alice"]), ("empty", [])])]⟩
      "other/repo" "default").1 (by decide)
  · exact (c1_determineReviewers ⟨[("acme/app", [("default", ["alice"]), ("empty", [])])]⟩
      "acme/app" "infra").2.1 [("default", ["alice"]), ("empty", [])] (by decide) (by decide)
  · exact (c1_determineReviewers ⟨[("acme/app", [("default", ["alice"]), ("empty", [])])]⟩
      "acme/app" "default").2.2.1 [("default", ["alice"]), ("empty", [])] ["alice"]
      (by decide) (by decide)
  · exact ((c1_determineReviewers ⟨[("acme/app", [("default", ["alice"]), ("empty", [])])]⟩
      "acme/app" "empty").2.2.2 [("default", ["alice"]), ("empty", [])]
      (by decide) (by decide)).1

/-- A parsed YAML value, the tree handed to the repository's decoding
hooks by the YAML library: a string scalar, any other non-null scalar
(number, boolean — carrying its literal text, which is what the library
stores when such a scalar is decoded into a Go string), the null scalar,
a sequence, or a mapping with keys already decoded to strings (the only
key shape the program's target maps accept). -/
inductive Yaml where
  | str (s : String)
  | scalar (s : String)
  | null
  | seq (items : List Yaml)
  | map (entries : List (String × Yaml))

/-- Decoding a sequence's items into Go `[]string`: the library fills a
string element from any non-null scalar's literal text, while a null
item, a nested sequence or a nested mapping cannot become a string and
fail the decode. -/
def decodeStrings : List Yaml → Option (List String)
  | [] => some []
  | .str s :: rest => (decodeStrings rest).map (fun l => s :: l)
  | .scalar s :: rest => (decodeStrings rest).map (fun l => s :: l)
  | _ :: _ => none

/-- Decoding a YAML value into Go `[]string` (the `unmarshal(&group)`
attempt in `repositoryGroups.UnmarshalYAML`, and the value decode of the
group map): a sequence decodes item-wise, the null scalar decodes into a
nil slice, and every other shape fails. -/
def decodeStringList : Yaml → Option (List String)
  | .seq items => decodeStrings items
  | .null => some []
  | _ => none

/-- Decoding mapping entries into Go `map[string][]string`. -/
def decodeGroupEntries : List (String × Yaml) → Option Groups
  | [] => some []
  | (k, v) :: rest =>
    match decodeStringList v with
    | none => none
    | some l => (decodeGroupEntries rest).map (fun g => (k, l) :: g)

/-- Embeds `repositoryGroups.UnmarshalYAML` (`main.go` lines 399-414):
first try to decode the value as a bare list of usernames — the shorthand
for the `default` group — and otherwise decode it as a mapping from group
name to list of usernames.  A null value never reaches this hook (the
library skips custom unmarshalers for null and null cannot fill the
`repositoryGroups` struct), so it is a decode failure. -/
def decodeGroups : Yaml → Option Groups
  | .null => none
  | y =>
    match decodeStringList y with
    | some l => some [("default", l)]
    | none =>
      match y with
      | .map entries => decodeGroupEntries entries
      | _ => none

/-- Decoding the `repositories` mapping's entries, lower-casing every
repository key as `repositories.UnmarshalYAML` does. -/
def decodeRepoEntries : List (String × Yaml) → Option Repositories
  | [] => some []
  | (k, v) :: rest =>
    match decodeGroups v with
    | none => none
    | some g => (decodeRepoEntries rest).map (fun r => (goToLower k, g) :: r)

/-- Embeds `repositories.UnmarshalYAML` (`main.go` lines 416-428).  A
null `repositories` value also skips the hook and decodes into a nil
map, leaving no repositories. -/
def decodeRepositories : Yaml → Option Repositories
  | .map entries => decodeRepoEntries entries
  | .null => some []
  | _ => none

/-- The content of a file as seen by `yaml.Unmarshal`: empty text, text
the YAML grammar rejects, or a well-formed document. -/
inductive FileContent where
  | empty
  | invalid
  | doc (y : Yaml)

/-- The failures of `parseConfig` as classified by `run`: the
`os.ErrNotExist` read failure (carrying the attempted path) and any
decode failure. -/
inductive ConfigError where
  | configNotFound (path : String)
  | malformedConfig
deriving DecidableEq

/-- Decoding a whole document into the `config` struct: a mapping document
with a `repositories` entry decodes that entry; a mapping without one
leaves the struct's zero value (no repositories); any other document
shape is a decode failure. -/
def unmarshalConfigYaml : Yaml → Option Repositories
  | .map entries =>
    match goLookup entries "repositories" with
    | none => some []
    | some v => decodeRepositories v
  | _ => none

/-- `yaml.Unmarshal` on a file's content: empty input leaves the struct's
zero value untouched (success with no repositories); rejected text or a
document that does not fit the struct is `malformedConfig`. -/
def unmarshalConfig : FileContent → Except ConfigError Config
  | .empty => .ok ⟨[]⟩
  | .invalid => .error .malformedConfig
  | .doc y =>
    match unmarshalConfigYaml y with
    | some reps => .ok ⟨reps⟩
    | none => .error .malformedConfig

/-- Embeds `parseConfig` (`main.go` lines 430-446) over a file system
modelled as an association list from path to content; a missing path is
the `os.ReadFile` not-exist failure. -/
def parseConfig (fs : List (String × FileContent)) (file : String) :
    Except ConfigError Config :=
  match goLookup fs file with
  | none => .error (.configNotFound file)
  | some content => unmarshalConfig content

/-- The lookup key computed by `run` (`main.go` lines 550-555): the
literal `*` when `--global` is set, otherwise the concrete repository
name; the result is lower-cased before resolution. -/
def resolveKey (globalGroups : Bool) (repo : String) : String :=
  goToLower (if globalGroups then "*" else repo)

lemma decodeRepoEntries_keys {entries : List (String × Yaml)}
    {reps : Repositories} (h : decodeRepoEntries entries = some reps) :
    reps.map Prod.fst = entries.map (fun kv => goToLower kv.1) := by
  induction entries generalizing reps with
  | nil =>
    simp [decodeRepoEntries] at h
    simp [← h]
  | cons kv rest ih =>
    obtain ⟨k, v⟩ := kv
    simp only [decodeRepoEntries] at h
    cases hg : decodeGroups v with
    | none => rw [hg] at h; simp at h
    | some g =>
      rw [hg] at h
      simp only [Option.map_eq_some'] at h
      obtain ⟨r', hr', rfl⟩ := h
      simp [ih hr']

lemma decodeGroupEntries_keys {entries : List (String × Yaml)}
    {gs : Groups} (h : decodeGroupEntries entries = some gs) :
    gs.map Prod.fst = entries.map Prod.fst := by
  induction entries generalizing gs with
  | nil =>
    simp [decodeGroupEntries] at h
    simp [← h]
  | cons kv rest ih =>
    obtain ⟨k, v⟩ := kv
    simp only [decodeGroupEntries] at h
    cases hv : decodeStringList v with
    | none => rw [hv] at h; simp at h
    | some l =>
      rw [hv] at h
      simp only [Option.map_eq_some'] at h
      obtain ⟨g', hg', rfl⟩ := h
      simp [ih hg']

/-- C5: decoding lower-cases every repository key and resolution
lower-cases the requested repository name (so `Acme/App` in the config is
found by a request for `acme/app`), while group keys are stored verbatim
and looked up by exact match, so group lookup stays case-sensitive. -/
theorem c5_case_sensitivity :
    (∀ entries reps, decodeRepoEntries entries = some reps →
        reps.map Prod.fst = entries.map (fun kv => goToLower kv.1))
    ∧ (∀ repo, resolveKey false repo = goToLower repo)
    ∧ (∀ entries gs, decodeGroupEntries entries = some gs →
        gs.map Prod.fst = entries.map Prod.fst)
    ∧ (∀ k v g grp rs repo, decodeGroups v = some g →
        goToLower repo = goToLower k → goLookup g grp = some rs →
        decodeRepositories (.map [(k, v)]) = some [(goToLower k, g)]
          ∧ determineReviewers ⟨[(goToLower k, g)]⟩ (resolveKey false repo) grp
              = .ok rs)
    ∧ (∀ rs : List String,
        determineReviewers ⟨[("acme/app", [("Infra", rs)])]⟩ "acme/app" "infra"
          = .error .groupNotConfigured) := by
  refine ⟨fun entries reps h => decodeRepoEntries_keys h, fun repo => rfl,
    fun entries gs h => decodeGroupEntries_keys h,
    fun k v g grp rs repo hv heq hg => ⟨?_, ?_⟩,
    fun rs => by simp [determineReviewers, goLookup]⟩
  · simp [decodeRepositories, decodeRepoEntries, hv]
  · simp [determineReviewers, resolveKey, goLookup, heq, hg]

/-- C5 witness: the config key `Acme/App` (stored lower-cased) is matched
by a resolution request for `acme/app`. -/
theorem c5_case_sensitivity_witness :
    decodeRepositories (.map [("Acme/App", .seq (["alice"].map Yaml.str))])
        = some [(goToLower "Acme/App", [("default", ["alice"])])]
      ∧ determineReviewers ⟨[(goToLower "Acme/App", [("default", ["alice"])])]⟩
          (resolveKey false "acme/app") "default" = .ok ["alice"] :=
  c5_case_sensitivity.2.2.2.1 "Acme/App" (.seq (["alice"].map Yaml.str))
    [("default", ["alice"])] "default" ["alice"] "acme/app"
    (by decide) (by decide) (by decide)

/-- The inputs `run` works from once the CLI flag parsing (an excluded
collaborator) has finished: the values of `--repo`, `--from`, `--global`,
`--config-dir`, `--dry-run`, and the positional target argument. -/
structure RunOpts where
  repoFlag : String
  group : String
  globalGroups : Bool
  configDir : String
  isDryRun : Bool
  target : String

/-- The observable outcome of one `run`: the exit code, the messages
written to the stdout and stderr streams (each list entry is one write,
with its trailing newline), and the argument vectors passed to the
external `gh` executor. -/
structure RunResult where
  exitCode : Nat
  stdout : List String
  stderr : List String
  execCalls : List (List String)
deriving DecidableEq

/-- The repository-shape check at `main.go` lines 530-534: the name must
contain the `/` separator and must not start with `http`. -/
def validRepositoryShape (repo : String) : Bool :=
  cutFound repo '/' && !(goStartsWith repo "http")

/-- The repository selection at `main.go` lines 516-528: the `--repo`
flag when non-empty, otherwise `owner/name` from the current-repository
inference collaborator, whose failure carries an error message. -/
def determineRepo (repoFlag : String)
    (currentRepo : Except String (String × String)) : Except String String :=
  if repoFlag = "" then
    currentRepo.map (fun p => p.1 ++ "/" ++ p.2)
  else .ok repoFlag

/-- Embeds `run` (`main.go` lines 491-588) from the point where flag
parsing has succeeded.  The current-repository inference and the `gh`
executor are passed in as collaborators, and the file system is the
association list read by `parseConfig`.  On the malformed-config path the
code prints the decode error's own text, which is produced by the YAML
library and not modelled; the model writes a fixed stand-in message. -/
def run (opts : RunOpts) (currentRepo : Except String (String × String))
    (fs : List (String × FileContent))
    (ghExec : List String → String × String) : RunResult :=
  match determineRepo opts.repoFlag currentRepo with
  | .error e => ⟨1, [], ["could not determine repository: " ++ e ++ "\n"], []⟩
  | .ok repo =>
    if validRepositoryShape repo then
      match parseConfig fs (filepathJoin opts.configDir "gh-rr.yml") with
      | .error (.configNotFound path) =>
        ⟨1, [], ["please create " ++ path ++ " to configure your repositories\n"], []⟩
      | .error .malformedConfig =>
        ⟨1, [], ["yaml: decode error\n"], []⟩
      | .ok conf =>
        match determineReviewers conf (resolveKey opts.globalGroups repo) opts.group with
        | .error .repositoryNotConfigured =>
          ⟨1, [], ["no reviewers are configured for " ++ repo ++ "\n"], []⟩
        | .error .groupNotConfigured =>
          ⟨1, [], [repo ++ " does not have a group named " ++ opts.group ++ "\n"], []⟩
        | .ok reviewers =>
          if opts.isDryRun then
            ⟨0, ("would have used `gh pr edit --repo " ++ repo
                  ++ "` to request reviews from:\n")
                :: reviewers.map (fun r => "  - " ++ r ++ "\n"), [], []⟩
          else
            match ghExec (buildAddReviewersArgs repo opts.target reviewers) with
            | (url, errMsg) =>
              if errMsg ≠ "" then
                ⟨1, ["\ncould not add reviewers: " ++ goTrimSpace errMsg ++ "\n"], [],
                  [buildAddReviewersArgs repo opts.target reviewers]⟩
              else
                ⟨0, ("requested reviews on " ++ url ++ " from:\n")
                    :: reviewers.map (fun r => "  - " ++ r ++ "\n"), [],
                  [buildAddReviewersArgs repo opts.target reviewers]⟩
    else
      ⟨1, [], ["repository should be in the format of <owner>/<repository>\n"], []⟩

/-- C3: in global mode the lookup key is always the literal `*`, so the
resolved reviewers are independent of which concrete repository is
targeted, and two configs that agree on their `*` entry resolve
identically in global mode — a repository-specific group of the same name
is never consulted or merged in. -/
theorem c3_global_mode (conf conf' : Config) (repo repo' group : String) :
    resolveKey true repo = "*"
    ∧ determineReviewers conf (resolveKey true repo) group
        = determineReviewers conf (resolveKey true repo') group
    ∧ (goLookup conf.repositories "*" = goLookup conf'.repositories "*" →
        determineReviewers conf (resolveKey true repo) group
          = determineReviewers conf' (resolveKey true repo) group) := by
  refine ⟨rfl, rfl, fun h => ?_⟩
  have hk : resolveKey true repo = "*" := rfl
  rw [hk]
  simp only [determineReviewers]
  rw [h]

/-- C3 witness: with `{*: {security: [dana]}, acme/app: {security: [alice]}}`,
global-mode resolution of `security` ignores the `acme/app` entry: it
agrees with the config that has only the `*` entry. -/
theorem c3_global_mode_witness :
    determineReviewers
        ⟨[("*", [("security", ["dana"])]), ("acme/app", [("security", ["alice"])])]⟩
        (resolveKey true "acme/app") "security"
      = determineReviewers ⟨[("*", [("security", ["dana"])])]⟩
        (resolveKey true "acme/app") "security" :=
  (c3_global_mode
    ⟨[("*", [("security", ["dana"])]), ("acme/app", [("security", ["alice"])])]⟩
    ⟨[("*", [("security", ["dana"])])]⟩
    "acme/app" "acme/app" "security").2.2 (by decide)

/-- C7 counterexample: the repository string `a/b/c` holds two `/`
separators, not exactly one, yet the shape check accepts it and `run`
proceeds to load the config (the stderr message is the missing-config
hint, not the format error). -/
theorem c7_counterexample :
    validRepositoryShape "a/b/c" = true
      ∧ ("a/b/c".data.count '/') = 2
      ∧ (run ⟨"a/b/c", "default", false, "home", false, "1"⟩ (.ok ("x", "y")) []
          (fun _ => ("", ""))).stderr
        = ["please create home/gh-rr.yml to configure your repositories\n"] :=
  ⟨by decide, by decide, rfl⟩

/-- C7 (amended): the shape check accepts a repository string exactly when
it contains at least one `/` and does not start with `http`; every
rejected string makes `run` exit 1 with the format message before the
config is consulted (the outcome is the same for every file system and
executor, with no executor call). -/
theorem c7_repo_validation (repo : String) (opts : RunOpts)
    (currentRepo : Except String (String × String))
    (fs : List (String × FileContent)) (ghExec : List String → String × String) :
    (validRepositoryShape repo = true ↔
      (cutFound repo '/' = true ∧ goStartsWith repo "http" = false))
    ∧ (determineRepo opts.repoFlag currentRepo = .ok repo →
        validRepositoryShape repo = false →
        run opts currentRepo fs ghExec
          = ⟨1, [], ["repository should be in the format of <owner>/<repository>\n"], []⟩) := by
  constructor
  · simp [validRepositoryShape]
  · intro hrepo hvalid
    simp [run, hrepo, hvalid]

/-- C7 witness: `http/evil` contains a separator but starts with `http`,
so it is rejected and `run` exits with the format message while the file
system (which even holds a config for it) is never read. -/
theorem c7_repo_validation_witness :
    (validRepositoryShape "http/evil" = true ↔
      (cutFound "http/evil" '/' = true ∧ goStartsWith "http/evil" "http" = false))
      ∧ run ⟨"http/evil", "default", false, "home", false, "1"⟩ (.ok ("x", "y"))
          [(filepathJoin "home" "gh-rr.yml", .empty)] (fun _ => ("", ""))
        = ⟨1, [], ["repository should be in the format of <owner>/<repository>\n"], []⟩ :=
  ⟨(c7_repo_validation "http/evil" ⟨"http/evil", "default", false, "home", false, "1"⟩
      (.ok ("x", "y")) [(filepathJoin "home" "gh-rr.yml", .empty)] (fun _ => ("", ""))).1,
    (c7_repo_validation "http/evil" ⟨"http/evil", "default", false, "home", false, "1"⟩
      (.ok ("x", "y")) [(filepathJoin "home" "gh-rr.yml", .empty)] (fun _ => ("", ""))).2
      rfl (by decide)⟩

/-- C9: in dry-run mode, once the repository is determined and valid, the
config loads, and the repository/group pair resolves, `run` exits 0, the
external executor is never invoked (no recorded calls), and stdout lists
the resolved reviewers. -/
theorem c9_dry_run (opts : RunOpts) (currentRepo : Except String (String × String))
    (fs : List (String × FileContent)) (ghExec : List String → String × String)
    (repo : String) (conf : Config) (reviewers : List String) :
    determineRepo opts.repoFlag currentRepo = .ok repo →
    validRepositoryShape repo = true →
    parseConfig fs (filepathJoin opts.configDir "gh-rr.yml") = .ok conf →
    determineReviewers conf (resolveKey opts.globalGroups repo) opts.group
      = .ok reviewers →
    opts.isDryRun = true →
    run opts currentRepo fs ghExec
      = ⟨0, ("would have used `gh pr edit --repo " ++ repo
            ++ "` to request reviews from:\n")
          :: reviewers.map (fun r => "  - " ++ r ++ "\n"), [], []⟩ := by
  intro hrepo hvalid hconf hres hdry
  simp [run, hrepo, hvalid, hconf, hres, hdry]

/-- C9 witness: a dry run against `{acme/app: [alice, bob]}` exits 0 with
the reviewers on stdout and zero executor calls, even though the supplied
executor would report a failure if it were called. -/
theorem c9_dry_run_witness :
    run ⟨"acme/app", "default", false, "home", true, "1"⟩ (.ok ("x", "y"))
        [(filepathJoin "home" "gh-rr.yml", .doc (.map [("repositories",
            .map [("acme/app", .seq (["alice", "bob"].map Yaml.str))])]))]
        (fun _ => ("", "boom"))
      = ⟨0, ["would have used `gh pr edit --repo acme/app` to request reviews from:\n",
          "  - alice\n", "  - bob\n"], [], []⟩ :=
  c9_dry_run ⟨"acme/app", "default", false, "home", true, "1"⟩ (.ok ("x", "y"))
    [(filepathJoin "home" "gh-rr.yml", .doc (.map [("repositories",
        .map [("acme/app", .seq (["alice", "bob"].map Yaml.str))])]))]
    (fun _ => ("", "boom")) "acme/app"
    ⟨[("acme/app", [("default", ["alice", "bob"])])]⟩ ["alice", "bob"]
    rfl (by decide) rfl rfl rfl

lemma mem_of_cutFound {s : String} {c : Char} (h : cutFound s c = true) :
    c ∈ s.data := by
  simpa [cutFound] using h

lemma goToLower_ne_star {repo : String} (h : cutFound repo '/' = true) :
    goToLower repo ≠ "*" := by
  intro heq
  have hd : repo.data.map Char.toLower = "*".data := congrArg String.data heq
  have hmem : ('/' : Char) ∈ repo.data.map Char.toLower :=
    List.mem_map.mpr ⟨'/', mem_of_cutFound h, by decide⟩
  rw [hd] at hmem
  exact absurd hmem (by decide)

/-- C10: without global mode the wildcard entry is never consulted: a
repository name that passed the shape check (it contains `/`) can never
lower-case to `*`, and when the concrete repository key is absent the
resolution fails with `RepositoryNotConfigured` — and `run` exits 1 with
that message — even though the `*` entry defines the requested group. -/
theorem c10_no_wildcard_fallback (opts : RunOpts)
    (currentRepo : Except String (String × String))
    (fs : List (String × FileContent)) (ghExec : List String → String × String)
    (repo : String) (conf : Config) (gstar : Groups) (rs : List String) :
    opts.globalGroups = false →
    determineRepo opts.repoFlag currentRepo = .ok repo →
    validRepositoryShape repo = true →
    parseConfig fs (filepathJoin opts.configDir "gh-rr.yml") = .ok conf →
    goLookup conf.repositories (goToLower repo) = none →
    goLookup conf.repositories "*" = some gstar →
    goLookup gstar opts.group = some rs →
    goToLower repo ≠ "*"
    ∧ determineReviewers conf (resolveKey opts.globalGroups repo) opts.group
        = .error .repositoryNotConfigured
    ∧ run opts currentRepo fs ghExec
        = ⟨1, [], ["no reviewers are configured for " ++ repo ++ "\n"], []⟩ := by
  intro hglob hrepo hvalid hconf hnone hstar hgroup
  have hcut : cutFound repo '/' = true := by
    have := hvalid
    simp [validRepositoryShape, Bool.and_eq_true] at this
    exact this.1
  have hres : determineReviewers conf (resolveKey opts.globalGroups repo) opts.group
      = .error .repositoryNotConfigured := by
    simp [determineReviewers, resolveKey, hglob, hnone]
  exact ⟨goToLower_ne_star hcut, hres, by simp [run, hrepo, hvalid, hconf, hres]⟩

/-- C10 witness: with a config defining only `{*: {security: [dana]}}`,
resolving repository `acme/app` and group `security` without global mode
fails with the repository-not-configured message even though `*` has the
group. -/
theorem c10_no_wildcard_fallback_witness :
    goToLower "acme/app" ≠ "*"
      ∧ determineReviewers ⟨[("*", [("security", ["dana"])])]⟩
          (resolveKey false "acme/app") "security"
        = .error .repositoryNotConfigured
      ∧ run ⟨"acme/app", "security", false, "home", false, "1"⟩ (.ok ("x", "y"))
          [(filepathJoin "home" "gh-rr.yml", .doc (.map [("repositories",
              .map [("*", .map [("security", .seq (["dana"].map Yaml.str))])])]))]
          (fun _ => ("", ""))
        = ⟨1, [], ["no reviewers are configured for acme/app\n"], []⟩ :=
  c10_no_wildcard_fallback ⟨"acme/app", "security", false, "home", false, "1"⟩
    (.ok ("x", "y"))
    [(filepathJoin "home" "gh-rr.yml", .doc (.map [("repositories",
        .map [("*", .map [("security", .seq (["dana"].map Yaml.str))])])]))]
    (fun _ => ("", "")) "acme/app" ⟨[("*", [("security", ["dana"])])]⟩
    [("security", ["dana"])] ["dana"]
    rfl rfl (by decide) rfl (by decide) (by decide) (by decide)

/-- C8 counterexample: when the external command fails (non-empty
error-stream output from the executor), `run` exits 1 but writes the
diagnostic to stdout — the stderr stream stays empty, so this handled
error is not converted to a stderr message. -/
theorem c8_counterexample :
    run ⟨"acme/app", "default", false, "home", false, "1"⟩ (.ok ("x", "y"))
        [(filepathJoin "home" "gh-rr.yml", .doc (.map [("repositories",
            .map [("acme/app", .seq (["alice"].map Yaml.str))])]))]
        (fun _ => ("", "boom"))
      = ⟨1, ["\ncould not add reviewers: boom\n"], [],
          [["pr", "edit", "1", "--repo", "acme/app", "--add-reviewer", "alice"]]⟩
    ∧ (run ⟨"acme/app", "default", false, "home", false, "1"⟩ (.ok ("x", "y"))
        [(filepathJoin "home" "gh-rr.yml", .doc (.map [("repositories",
            .map [("acme/app", .seq (["alice"].map Yaml.str))])]))]
        (fun _ => ("", "boom"))).stderr = [] :=
  ⟨rfl, rfl⟩

/-- C8 (amended): `run` always exits 0 or 1, makes at most one executor
call (no retries), and every failure exits 1 with exactly one diagnostic
message: on stderr with no executor call for all pre-invocation errors,
or — for an external-command failure only — on stdout after the single
executor call. -/
theorem c8_error_boundary (opts : RunOpts)
    (currentRepo : Except String (String × String))
    (fs : List (String × FileContent)) (ghExec : List String → String × String) :
    ((run opts currentRepo fs ghExec).exitCode = 0
      ∨ ((run opts currentRepo fs ghExec).exitCode = 1
          ∧ (((run opts currentRepo fs ghExec).stdout = []
                ∧ (run opts currentRepo fs ghExec).stderr.length = 1
                ∧ (run opts currentRepo fs ghExec).execCalls = [])
            ∨ ((run opts currentRepo fs ghExec).stderr = []
                ∧ (run opts currentRepo fs ghExec).stdout.length = 1
                ∧ (run opts currentRepo fs ghExec).execCalls.length = 1))))
    ∧ (run opts currentRepo fs ghExec).execCalls.length ≤ 1 := by
  generalize hr : run opts currentRepo fs ghExec = r
  unfold run at hr
  repeat' split at hr
  all_goals subst hr
  all_goals simp

end GhRr
